import Mathlib

/-!
Shallow embedding of the design-editor repository (SudiptaKD/design-editor).

The core is the reducer in src/state/reducer.ts (textually repeated in
src/components/DesignEditor/DesignEditor.tsx and src/app/page.tsx): a pure
state machine over a list of shapes with past/future history stacks.
Peripheral code embedded here: generateShape, saveToLocalStorage and
loadFromLocalStorage from src/utils/utils.ts, and the two add-shape paths
of the editor components.

Modelling conventions:
- TypeScript numbers used for geometry are embedded as Int (the program only
  ever stores and copies them; no float arithmetic is relevant to the claims).
- `Date.now()` is modelled as an explicit Nat argument; `.toString()` is
  `Nat.repr` (the decimal representation, matching JS for naturals).
- The UPDATE_SHAPE payload is `Partial<Shape> & \x7b id: string \x7d`
  (DesignEditor.tsx / page.tsx); it is embedded as a record of Option fields
  plus a mandatory id, and the JS spread merge is a field-wise getD.
- `state?.selectedShapeId || null` coalesces every falsy value (null and the
  empty string) to null; `coalesceSelected` embeds exactly that.
- The switch statement has a default branch returning the state unchanged;
  runtime action values outside the typed union hit it.  The constructor
  `Action.unknownAction` models such a value.
- localStorage's "designs" key holds a JSON object mapping design names to
  shape arrays; it is embedded as an association list with JS-object upsert
  semantics (replace in place if the key exists, else append).  The
  JSON.stringify/JSON.parse round trip on these plain records is the
  identity in this model.
-/

namespace DesignEditor

/-- The `type` field of a shape: "rectangle" or "circle". -/
inductive ShapeType where
  | rectangle
  | circle
deriving Repr, DecidableEq

/-- One shape record (src/state/types.ts). -/
structure Shape where
  id : String
  type : ShapeType
  x : Int
  y : Int
  width : Int
  height : Int
  zIndex : Int
deriving Repr, DecidableEq

/-- Payload of UPDATE_SHAPE: a mandatory id plus optional overrides
(Partial of Shape intersected with the id, as in DesignEditor.tsx). -/
structure UpdatePayload where
  id : String
  type : Option ShapeType
  x : Option Int
  y : Option Int
  width : Option Int
  height : Option Int
  zIndex : Option Int
deriving Repr, DecidableEq

/-- The JS spread merge of a partial payload over a shape:
fields present in the payload overwrite, others keep their prior value.
The id field is always present in the payload. -/
def mergeShape (sh : Shape) (p : UpdatePayload) : Shape :=
  { id := p.id
    type := p.type.getD sh.type
    x := p.x.getD sh.x
    y := p.y.getD sh.y
    width := p.width.getD sh.width
    height := p.height.getD sh.height
    zIndex := p.zIndex.getD sh.zIndex }

/-- Reducer state (src/state/types.ts AppState). -/
structure AppState where
  past : List (List Shape)
  present : List Shape
  future : List (List Shape)
  selectedShapeId : Option String
deriving Repr, DecidableEq

/-- The action union of src/state/types.ts, with the payload types of the
editor components (partial update payload, nullable selection), plus a
constructor for runtime values outside the union, which the switch's
default branch absorbs. -/
inductive Action where
  | addShape (payload : Shape)
  | updateShape (payload : UpdatePayload)
  | deleteShape (payload : String)
  | loadShapes (payload : List Shape)
  | clearShapes
  | undo
  | redo
  | selectShape (payload : Option String)
  | unknownAction
deriving Repr, DecidableEq

/-- Embedding of the JS expression `state?.selectedShapeId || null`:
null stays null and the falsy empty string is coalesced to null. -/
def coalesceSelected (o : Option String) : Option String :=
  match o with
  | none => none
  | some s => if s = "" then none else some s

/-- Initial state (src/state/reducer.ts). -/
def initialState : AppState :=
  { past := [], present := [], future := [], selectedShapeId := none }

/-- The reducer of src/state/reducer.ts, case by case.
UNDO reads `state.past[state.past.length - 1] || []`, an index access with a
default, embedded as List.getD; `slice(0, -1)` is dropLast and `slice(1)` is
tail; spreads that keep a field are written out explicitly. -/
def reducer (state : AppState) (action : Action) : AppState :=
  match action with
  | Action.addShape payload =>
      { state with
        past := state.past ++ [state.present]
        present := state.present ++ [payload]
        future := [] }
  | Action.updateShape payload =>
      { state with
        past := state.past ++ [state.present]
        present := state.present.map (fun shape =>
          if shape.id = payload.id then mergeShape shape payload else shape)
        future := [] }
  | Action.deleteShape payload =>
      { state with
        past := state.past ++ [state.present]
        present := state.present.filter (fun shape => shape.id != payload)
        future := [] }
  | Action.loadShapes payload =>
      { state with present := payload }
  | Action.clearShapes =>
      { state with
        past := state.past ++ [state.present]
        present := []
        future := [] }
  | Action.undo =>
      if state.past.length = 0 then state
      else
        { past := state.past.dropLast
          present := state.past.getD (state.past.length - 1) []
          future := state.present :: state.future
          selectedShapeId := coalesceSelected state.selectedShapeId }
  | Action.redo =>
      if state.future.length = 0 then state
      else
        { past := state.past ++ [state.present]
          present := state.future.getD 0 []
          future := state.future.tail
          selectedShapeId := coalesceSelected state.selectedShapeId }
  | Action.selectShape payload =>
      { state with selectedShapeId := payload }
  | Action.unknownAction => state

/-- generateShape from src/utils/utils.ts: default geometry, id from
Date.now().toString() (the Nat argument models the clock reading), and a
constant zIndex of 1. -/
def generateShape (ty : ShapeType) (now : Nat) : Shape :=
  { id := Nat.repr now
    type := ty
    x := 50
    y := 50
    width := 100
    height := 100
    zIndex := 1 }

/-- The shape literal built inline by addShape in
src/components/DesignEditor/DesignEditor.tsx (and src/app/page.tsx):
same defaults but zIndex set to the current present length plus one. -/
def newShapeInline (ty : ShapeType) (now : Nat) (presentLen : Nat) : Shape :=
  { id := Nat.repr now
    type := ty
    x := 50
    y := 50
    width := 100
    height := 100
    zIndex := (presentLen : Int) + 1 }

/-- The parsed contents of the localStorage "designs" key: an ordered
mapping from design name to shape list, as a JS object is. -/
abbrev Storage := List (String × List Shape)

/-- saveToLocalStorage from src/utils/utils.ts: JS object upsert of the
designs blob (overwrite in place when the name exists, append otherwise). -/
def saveToLocalStorage (st : Storage) (designName : String) (shapes : List Shape) : Storage :=
  if (List.any st (fun kv => kv.1 = designName)) then
    List.map (fun kv => if kv.1 = designName then (designName, shapes) else kv) st
  else
    st ++ [(designName, shapes)]

/-- loadFromLocalStorage from src/utils/utils.ts:
`savedDesigns[designName] || []`. -/
def loadFromLocalStorage (st : Storage) (designName : String) : List Shape :=
  match List.find? (fun kv => kv.1 = designName) st with
  | some kv => kv.2
  | none => []

/-- Combined session state of a running editor component: the reducer state
plus the parsed localStorage "designs" blob. -/
structure EditorState where
  app : AppState
  store : Storage

/-- User-triggered events the editor components dispatch.  The two add
events are the two add-shape paths in the repository: addGen goes through
generateShape (src/components/DesignEditor.tsx) and addInline builds the
shape literal with zIndex length+1 (src/components/DesignEditor/
DesignEditor.tsx and src/app/page.tsx).  Both read Date.now(), carried
here as the Nat argument. -/
inductive EditorEvent where
  | addGen (ty : ShapeType) (now : Nat)
  | addInline (ty : ShapeType) (now : Nat)
  | updateEvt (p : UpdatePayload)
  | deleteEvt (id : String)
  | clearEvt
  | undoEvt
  | redoEvt
  | selectEvt (o : Option String)
  | saveEvt (designName : String)
  | loadEvt (designName : String)
deriving Repr, DecidableEq

/-- How each editor event acts on the session state, following the
component handlers: adds, update, delete, clear, undo, redo, select are
single dispatches to the reducer; saveDesign writes present under the name;
loadDesign dispatches LOAD_SHAPES with the stored list. -/
def applyEvent (es : EditorState) (e : EditorEvent) : EditorState :=
  match e with
  | EditorEvent.addGen ty now =>
      { es with app := reducer es.app (Action.addShape (generateShape ty now)) }
  | EditorEvent.addInline ty now =>
      { es with app :=
          reducer es.app (Action.addShape (newShapeInline ty now es.app.present.length)) }
  | EditorEvent.updateEvt p =>
      { es with app := reducer es.app (Action.updateShape p) }
  | EditorEvent.deleteEvt i =>
      { es with app := reducer es.app (Action.deleteShape i) }
  | EditorEvent.clearEvt =>
      { es with app := reducer es.app Action.clearShapes }
  | EditorEvent.undoEvt =>
      { es with app := reducer es.app Action.undo }
  | EditorEvent.redoEvt =>
      { es with app := reducer es.app Action.redo }
  | EditorEvent.selectEvt o =>
      { es with app := reducer es.app (Action.selectShape o) }
  | EditorEvent.saveEvt n =>
      { es with store := saveToLocalStorage es.store n es.app.present }
  | EditorEvent.loadEvt n =>
      { es with app := reducer es.app (Action.loadShapes (loadFromLocalStorage es.store n)) }

/-- A whole session: fold the events over a starting state. -/
def runEvents (es : EditorState) (l : List EditorEvent) : EditorState :=
  List.foldl applyEvent es l

/-- Editor startup: empty reducer state, empty storage. -/
def initialEditor : EditorState :=
  { app := initialState, store := [] }

/-- The id string a single event generates (nonempty only for the two add
events, whose shape id is the clock reading rendered in decimal). -/
def eventAddIds (e : EditorEvent) : List String :=
  match e with
  | EditorEvent.addGen _ now => [Nat.repr now]
  | EditorEvent.addInline _ now => [Nat.repr now]
  | _ => []

/-- All ids generated along a trace, in order. -/
def traceAddIds (l : List EditorEvent) : List String :=
  (l.map eventAddIds).flatten

/-- A snapshot is well-identified relative to a set of generated ids:
its shape ids are pairwise distinct and all drawn from that set. -/
def DocOK (used : List String) (doc : List Shape) : Prop :=
  (doc.map Shape.id).Nodup ∧ ∀ i ∈ doc.map Shape.id, i ∈ used

/-- Reducer-state invariant: the present and every past and future
snapshot are well-identified. -/
def AppOK (used : List String) (s : AppState) : Prop :=
  DocOK used s.present ∧ (∀ d ∈ s.past, DocOK used d) ∧ (∀ d ∈ s.future, DocOK used d)

/-- Storage invariant: every stored design is well-identified. -/
def StoreOK (used : List String) (st : Storage) : Prop :=
  ∀ d ∈ st.map Prod.snd, DocOK used d

/-- Session invariant: every live snapshot, in the reducer state or in
storage, is well-identified. -/
def SessionOK (used : List String) (es : EditorState) : Prop :=
  AppOK used es.app ∧ StoreOK used es.store

/-- Concrete inputs used by witnesses and counterexamples. -/
def wShape : Shape := generateShape ShapeType.rectangle 1

/-- A partial update payload whose id matches no shape in wState. -/
def wPayload : UpdatePayload :=
  { id := "x", type := none, x := some 7, y := none, width := none, height := none,
    zIndex := none }

/-- A state holding one shape, used as a concrete witness input. -/
def wState : AppState :=
  { past := [], present := [wShape], future := [], selectedShapeId := none }

/-- A state with a nonempty future stack (as after an Undo). -/
def futState : AppState :=
  { past := [], present := [], future := [[generateShape ShapeType.rectangle 0]],
    selectedShapeId := none }

/-- The UPDATE_SHAPE map leaves the id sequence of the shape list unchanged:
a matched shape keeps its id because the merge writes the payload id, which
the match condition equates with the shape's own id. -/
lemma map_id_update (l : List Shape) (p : UpdatePayload) :
    (l.map (fun shape =>
      if shape.id = p.id then mergeShape shape p else shape)).map Shape.id =
    l.map Shape.id := by
  induction l with
  | nil => rfl
  | cons sh t ih =>
      simp only [List.map_cons, ih]
      by_cases h : sh.id = p.id
      · simp [h, mergeShape]
      · simp [h]

/-- The UPDATE_SHAPE map is the identity when no shape matches the id. -/
lemma map_update_no_match (l : List Shape) (p : UpdatePayload)
    (h : ∀ sh ∈ l, sh.id ≠ p.id) :
    l.map (fun shape => if shape.id = p.id then mergeShape shape p else shape) = l := by
  induction l with
  | nil => rfl
  | cons a t ih =>
      simp only [List.map_cons]
      rw [if_neg (h a (by simp))]
      rw [ih (fun sh hm => h sh (by simp [hm]))]

/-- C5: LoadShapes replaces the present wholesale and leaves the past and
the future stacks exactly as they were, with no history push. -/
theorem load_shapes_replaces_present_only (s : AppState) (shapes : List Shape) :
    (reducer s (Action.loadShapes shapes)).present = shapes ∧
    (reducer s (Action.loadShapes shapes)).past = s.past ∧
    (reducer s (Action.loadShapes shapes)).future = s.future :=
  ⟨rfl, rfl, rfl⟩

/-- C9: UpdateShape preserves the length of the present and its exact id
sequence; it never inserts, removes or reorders shapes and never changes a
shape's id. -/
theorem update_preserves_id_sequence (s : AppState) (p : UpdatePayload) :
    ((reducer s (Action.updateShape p)).present).map Shape.id = s.present.map Shape.id ∧
    (reducer s (Action.updateShape p)).present.length = s.present.length := by
  constructor
  · exact map_id_update s.present p
  · simp [reducer]

/-- C3: Undo on an empty past and Redo on an empty future return the state
unchanged, and an action outside the known command set falls through the
default branch and returns the state unchanged; the reducer is a total
function by construction. -/
theorem empty_history_noops (s : AppState) :
    (s.past = [] → reducer s Action.undo = s) ∧
    (s.future = [] → reducer s Action.redo = s) ∧
    reducer s Action.unknownAction = s := by
  refine ⟨fun h => ?_, fun h => ?_, rfl⟩
  · simp [reducer, h]
  · simp [reducer, h]

/-- Witness for C3 at the initial state. -/
theorem empty_history_noops_witness :
    reducer initialState Action.undo = initialState ∧
    reducer initialState Action.redo = initialState :=
  ⟨(empty_history_noops initialState).1 rfl, (empty_history_noops initialState).2.1 rfl⟩

/-- C4: UpdateShape with an id matching no shape leaves the present
unchanged in content, still pushes the prior present onto the past, and
clears the future. -/
theorem update_unknown_id_pushes_history (s : AppState) (p : UpdatePayload)
    (h : ∀ sh ∈ s.present, sh.id ≠ p.id) :
    (reducer s (Action.updateShape p)).present = s.present ∧
    (reducer s (Action.updateShape p)).past = s.past ++ [s.present] ∧
    (reducer s (Action.updateShape p)).future = [] := by
  refine ⟨?_, rfl, rfl⟩
  exact map_update_no_match s.present p h

/-- Witness for C4: updating the unknown id "x" in a one-shape state. -/
theorem update_unknown_id_pushes_history_witness :
    (reducer wState (Action.updateShape wPayload)).present = wState.present ∧
    (reducer wState (Action.updateShape wPayload)).past = wState.past ++ [wState.present] ∧
    (reducer wState (Action.updateShape wPayload)).future = [] :=
  update_unknown_id_pushes_history wState wPayload (by decide)

/-- C2 (amended): AddShape, UpdateShape, DeleteShape and ClearShapes clear
the future stack when it is nonempty (LoadShapes, excluded here, leaves it
untouched). -/
theorem mutating_commands_clear_future (s : AppState) (sh : Shape)
    (p : UpdatePayload) (i : String) (h : s.future ≠ []) :
    (reducer s (Action.addShape sh)).future = [] ∧
    (reducer s (Action.updateShape p)).future = [] ∧
    (reducer s (Action.deleteShape i)).future = [] ∧
    (reducer s Action.clearShapes).future = [] :=
  ⟨rfl, rfl, rfl, rfl⟩

/-- Witness for C2 (amended) at a state with a nonempty future. -/
theorem mutating_commands_clear_future_witness :
    (reducer futState (Action.addShape wShape)).future = [] ∧
    (reducer futState (Action.updateShape wPayload)).future = [] ∧
    (reducer futState (Action.deleteShape "y")).future = [] ∧
    (reducer futState Action.clearShapes).future = [] :=
  mutating_commands_clear_future futState wShape wPayload "y" (by decide)

/-- Counterexample for C2 as stated: LoadShapes is a mutating command, yet
applied to a state with a nonempty future it leaves the future nonempty. -/
theorem load_shapes_keeps_future_cex :
    futState.future ≠ [] ∧ (reducer futState (Action.loadShapes [])).future ≠ [] := by
  decide

/-- C10: every command other than SelectShape preserves the selection when
it is null or a nonempty string (Undo and Redo coalesce only falsy values
such as the empty string to null). -/
theorem non_select_preserves_selection (s : AppState) (a : Action)
    (hsel : s.selectedShapeId = none ∨
      ∃ str, s.selectedShapeId = some str ∧ str ≠ "")
    (ha : ∀ o, a ≠ Action.selectShape o) :
    (reducer s a).selectedShapeId = s.selectedShapeId := by
  have hco : coalesceSelected s.selectedShapeId = s.selectedShapeId := by
    rcases hsel with h | ⟨str, hs, hne⟩
    · simp [coalesceSelected, h]
    · simp [coalesceSelected, hs, hne]
  cases a with
  | selectShape o => exact absurd rfl (ha o)
  | undo =>
      simp only [reducer]
      split
      · rfl
      · simpa using hco
  | redo =>
      simp only [reducer]
      split
      · rfl
      · simpa using hco
  | addShape payload => rfl
  | updateShape payload => rfl
  | deleteShape payload => rfl
  | loadShapes payload => rfl
  | clearShapes => rfl
  | unknownAction => rfl

/-- Witness for C10: Undo on a one-shape state with a nonempty selection. -/
theorem non_select_preserves_selection_witness :
    (reducer { wState with selectedShapeId := some "1" } Action.undo).selectedShapeId =
      ({ wState with selectedShapeId := some "1" } : AppState).selectedShapeId :=
  non_select_preserves_selection { wState with selectedShapeId := some "1" } Action.undo
    (Or.inr ⟨"1", rfl, by decide⟩) (fun o h => Action.noConfusion h)

/-- Reading the last slot of a nonempty stack with the source's
index-or-default access returns the pushed element. -/
lemma getD_concat_last (l : List (List Shape)) (x : List Shape) :
    (l ++ [x]).getD ((l ++ [x]).length - 1) [] = x := by
  have hlen : (l ++ [x]).length - 1 = l.length := by simp
  rw [hlen, List.getD_eq_getElem?_getD, List.getElem?_append_right (le_refl l.length)]
  simp

/-- Undo applied to a state whose past was just pushed pops that push:
the popped snapshot becomes the present and the old present moves to the
head of the future. -/
lemma undo_of_push (s : AppState) (q : List Shape) (fut : List (List Shape)) :
    reducer { past := s.past ++ [s.present], present := q, future := fut,
              selectedShapeId := s.selectedShapeId } Action.undo =
    { past := s.past, present := s.present, future := q :: fut,
      selectedShapeId := coalesceSelected s.selectedShapeId } := by
  simp only [reducer]
  rw [if_neg (by simp)]
  have h1 : (s.past ++ [s.present]).dropLast = s.past := List.dropLast_concat
  have h2 := getD_concat_last s.past s.present
  simp [h1, h2]

/-- Redo applied to a state with a singleton future restores that snapshot
and pushes the present back onto the past. -/
lemma redo_of_singleton_future (pa : List (List Shape)) (pr q : List Shape)
    (sel : Option String) :
    reducer { past := pa, present := pr, future := [q], selectedShapeId := sel }
      Action.redo =
    { past := pa ++ [pr], present := q, future := [],
      selectedShapeId := coalesceSelected sel } := by
  simp only [reducer]
  rw [if_neg (by simp)]
  rfl

/-- The round-trip property claimed for a single mutating command: the
command followed by Undo restores the prior present, and Redo right after
that Undo restores the present, past and future that held after the
command. -/
def UndoRedoOK (s : AppState) (a : Action) : Prop :=
  (reducer (reducer s a) Action.undo).present = s.present ∧
  (reducer (reducer (reducer s a) Action.undo) Action.redo).present =
    (reducer s a).present ∧
  (reducer (reducer (reducer s a) Action.undo) Action.redo).past =
    (reducer s a).past ∧
  (reducer (reducer (reducer s a) Action.undo) Action.redo).future =
    (reducer s a).future

/-- The round trip holds for any command that pushes the present and clears
the future, stated over the pushed result. -/
lemma undoRedoOK_of_push (s : AppState) (a : Action) (q : List Shape)
    (hred : reducer s a =
      { past := s.past ++ [s.present], present := q, future := [],
        selectedShapeId := s.selectedShapeId }) :
    UndoRedoOK s a := by
  unfold UndoRedoOK
  rw [hred, undo_of_push s q [], redo_of_singleton_future]
  exact ⟨rfl, rfl, rfl, rfl⟩

/-- C1: for every state, applying AddShape, UpdateShape or DeleteShape and
then Undo restores the prior present, and Redo immediately after that Undo
restores the present, past and future that held before the Undo. -/
theorem undo_then_redo_roundtrip (s : AppState) (sh : Shape) (p : UpdatePayload)
    (i : String) :
    UndoRedoOK s (Action.addShape sh) ∧
    UndoRedoOK s (Action.updateShape p) ∧
    UndoRedoOK s (Action.deleteShape i) :=
  ⟨undoRedoOK_of_push s (Action.addShape sh) _ rfl,
   undoRedoOK_of_push s (Action.updateShape p) _ rfl,
   undoRedoOK_of_push s (Action.deleteShape i) _ rfl⟩

/-- C7 (amended): the inline add-shape path assigns the new shape a zIndex
of the current present length plus one and appends it; the generateShape
path assigns a constant zIndex of 1 regardless of the present; and
DeleteShape keeps every surviving shape record unchanged, so zIndexes are
never renumbered on delete. -/
theorem zindex_creation_and_delete (s : AppState) (ty : ShapeType) (now : Nat)
    (i : String) :
    (newShapeInline ty now s.present.length).zIndex = (s.present.length : Int) + 1 ∧
    (generateShape ty now).zIndex = 1 ∧
    (reducer s (Action.addShape (newShapeInline ty now s.present.length))).present =
      s.present ++ [newShapeInline ty now s.present.length] ∧
    (reducer s (Action.deleteShape i)).present =
      s.present.filter (fun sh => sh.id != i) :=
  ⟨rfl, rfl, rfl, rfl⟩

/-- The session state after one inline add, used by the C7 counterexample. -/
def afterOneAdd : EditorState :=
  runEvents initialEditor [EditorEvent.addInline ShapeType.rectangle 1]

/-- Counterexample for C7 as stated: with one shape already present, the
generateShape add path creates a shape whose zIndex is 1, not the count of
existing shapes plus one; the resulting present has zIndexes 1 and 1. -/
theorem generate_shape_zindex_cex :
    (generateShape ShapeType.circle 2).zIndex ≠
      ((afterOneAdd.app.present.length : Int) + 1) ∧
    ((applyEvent afterOneAdd (EditorEvent.addGen ShapeType.circle 2)).app.present.map
      Shape.zIndex) = [1, 1] := by
  decide

/-- Overwriting an existing key in the designs blob makes lookup return the
new shapes. -/
lemma find_after_overwrite (t : Storage) (n : String) (shapes : List Shape)
    (h : List.any t (fun kv => kv.1 = n)) :
    List.find? (fun kv => kv.1 = n)
      (List.map (fun kv => if kv.1 = n then (n, shapes) else kv) t) =
    some (n, shapes) := by
  induction t with
  | nil => simp at h
  | cons kv t ih =>
      by_cases hk : kv.1 = n
      · simp [hk]
      · have h2 : List.any t (fun kv => kv.1 = n) := by
          simp only [List.any_cons, hk, decide_False, Bool.false_or] at h
          exact h
        simp [hk, ih h2]

/-- Appending a fresh key to the designs blob makes lookup return the new
shapes. -/
lemma find_append_fresh (t : Storage) (n : String) (shapes : List Shape)
    (h : ¬ List.any t (fun kv => kv.1 = n)) :
    List.find? (fun kv => kv.1 = n) (t ++ [(n, shapes)]) = some (n, shapes) := by
  induction t with
  | nil => simp
  | cons kv t ih =>
      have hk : ¬ kv.1 = n := by
        intro hkn
        exact h (by simp [List.any_cons, hkn])
      have h2 : ¬ List.any t (fun kv => kv.1 = n) := by
        intro h2
        exact h (by simp [List.any_cons, h2])
      simp [hk, ih h2]

/-- C8: saving a design under a name and then loading that name returns the
saved shape list, and loading a name that was never saved returns the empty
list. -/
theorem save_load_roundtrip (st : Storage) (n m : String) (shapes : List Shape) :
    loadFromLocalStorage (saveToLocalStorage st n shapes) n = shapes ∧
    ((∀ kv ∈ st, kv.1 ≠ m) → loadFromLocalStorage st m = []) := by
  constructor
  · unfold saveToLocalStorage loadFromLocalStorage
    by_cases hany : List.any st (fun kv => kv.1 = n)
    · rw [if_pos hany, find_after_overwrite st n shapes hany]
    · rw [if_neg hany]
      show (match List.find? (fun kv => kv.1 = n) (st ++ [(n, shapes)]) with
        | some kv => kv.2
        | none => []) = shapes
      rw [find_append_fresh st n shapes hany]
  · intro h
    unfold loadFromLocalStorage
    rw [List.find?_eq_none.mpr (fun kv hkv => by simp [h kv hkv])]

/-- Witness for C8: a round trip through a one-entry storage, and a lookup
of a never-saved name. -/
theorem save_load_roundtrip_witness :
    loadFromLocalStorage (saveToLocalStorage [("A", [])] "N" [wShape]) "N" = [wShape] ∧
    loadFromLocalStorage [("A", ([] : List Shape))] "M" = [] :=
  ⟨(save_load_roundtrip [("A", [])] "N" "M" [wShape]).1,
   (save_load_roundtrip [("A", [])] "N" "M" [wShape]).2 (by decide)⟩

/-- Well-identifiedness is monotone in the set of generated ids. -/
lemma docOK_mono {used used2 : List String} (hsub : ∀ i ∈ used, i ∈ used2)
    {doc : List Shape} (h : DocOK used doc) : DocOK used2 doc :=
  ⟨h.1, fun i hi => hsub i (h.2 i hi)⟩

/-- The empty snapshot is well-identified. -/
lemma docOK_nil (used : List String) : DocOK used [] :=
  ⟨List.nodup_nil, by simp⟩

/-- Appending a shape with a never-used id keeps a snapshot well-identified
relative to the grown id set. -/
lemma docOK_append_fresh {used : List String} {doc : List Shape}
    (h : DocOK used doc) (sh : Shape) (hfresh : sh.id ∉ used) :
    DocOK (used ++ [sh.id]) (doc ++ [sh]) := by
  constructor
  · rw [List.map_append, List.nodup_append]
    refine ⟨h.1, by simp, ?_⟩
    intro a ha hb
    have hab : a = sh.id := by simpa using hb
    rw [hab] at ha
    exact hfresh (h.2 _ ha)
  · intro i hi
    rw [List.map_append] at hi
    rcases List.mem_append.1 hi with hi | hi
    · exact List.mem_append_left _ (h.2 i hi)
    · have : i = sh.id := by simpa using hi
      rw [this]
      exact List.mem_append_right _ (by simp)

/-- The UPDATE_SHAPE map keeps a snapshot well-identified (the id sequence
is unchanged). -/
lemma docOK_update {used : List String} {doc : List Shape} (p : UpdatePayload)
    (h : DocOK used doc) :
    DocOK used (doc.map (fun sh => if sh.id = p.id then mergeShape sh p else sh)) := by
  unfold DocOK
  rw [map_id_update]
  exact h

/-- Filtering keeps a snapshot well-identified. -/
lemma docOK_filter {used : List String} {doc : List Shape} (f : Shape → Bool)
    (h : DocOK used doc) : DocOK used (doc.filter f) := by
  constructor
  · exact h.1.sublist ((doc.filter_sublist).map Shape.id)
  · intro i hi
    rcases List.mem_map.1 hi with ⟨sh, hmem, rfl⟩
    exact h.2 _ (List.mem_map_of_mem _ (List.mem_of_mem_filter hmem))

/-- Reading any stack slot with an index-or-default access yields a
well-identified snapshot when the whole stack is well-identified. -/
lemma docOK_getD {used : List String} (l : List (List Shape)) (n : Nat)
    (h : ∀ d ∈ l, DocOK used d) : DocOK used (l.getD n []) := by
  rw [List.getD_eq_getElem?_getD]
  cases hg : l[n]? with
  | none => exact docOK_nil used
  | some d => exact h d (List.getElem?_mem hg)

/-- Any command that pushes the present and clears the future preserves the
reducer-state invariant, given a well-identified new present. -/
lemma appOK_pushed {used used2 : List String} {s : AppState} (q : List Shape)
    (sel : Option String) (hok : AppOK used s) (hsub : ∀ i ∈ used, i ∈ used2)
    (hq : DocOK used2 q) :
    AppOK used2 { past := s.past ++ [s.present], present := q, future := [],
                  selectedShapeId := sel } := by
  obtain ⟨hp, hpa, _⟩ := hok
  refine ⟨hq, ?_, ?_⟩
  · intro d hd
    rcases List.mem_append.1 hd with hd | hd
    · exact docOK_mono hsub (hpa d hd)
    · have : d = s.present := by simpa using hd
      rw [this]
      exact docOK_mono hsub hp
  · intro d hd
    simp at hd

/-- Undo preserves the reducer-state invariant. -/
lemma appOK_undo {used : List String} {s : AppState} (hok : AppOK used s) :
    AppOK used (reducer s Action.undo) := by
  by_cases h : s.past.length = 0
  · simp only [reducer, if_pos h]
    exact hok
  · simp only [reducer, if_neg h]
    obtain ⟨hp, hpa, hf⟩ := hok
    refine ⟨docOK_getD _ _ hpa, ?_, ?_⟩
    · intro d hd
      exact hpa d ((s.past.dropLast_sublist).subset hd)
    · intro d hd
      rcases List.mem_cons.1 hd with hd | hd
      · rw [hd]; exact hp
      · exact hf d hd

/-- Redo preserves the reducer-state invariant. -/
lemma appOK_redo {used : List String} {s : AppState} (hok : AppOK used s) :
    AppOK used (reducer s Action.redo) := by
  by_cases h : s.future.length = 0
  · simp only [reducer, if_pos h]
    exact hok
  · simp only [reducer, if_neg h]
    obtain ⟨hp, hpa, hf⟩ := hok
    refine ⟨docOK_getD _ _ hf, ?_, ?_⟩
    · intro d hd
      rcases List.mem_append.1 hd with hd | hd
      · exact hpa d hd
      · have : d = s.present := by simpa using hd
        rw [this]; exact hp
    · intro d hd
      exact hf d ((s.future.tail_sublist).subset hd)

/-- Saving the present under any name preserves the storage invariant. -/
lemma storeOK_save {used : List String} {st : Storage} (h : StoreOK used st)
    {doc : List Shape} (hdoc : DocOK used doc) (n : String) :
    StoreOK used (saveToLocalStorage st n doc) := by
  intro d hd
  unfold saveToLocalStorage at hd
  by_cases hany : List.any st (fun kv => kv.1 = n)
  · rw [if_pos hany] at hd
    simp only [List.map_map] at hd
    rcases List.mem_map.1 hd with ⟨kv, hkv, rfl⟩
    by_cases hk : kv.1 = n
    · show DocOK used (Prod.snd (if kv.1 = n then (n, doc) else kv))
      rw [if_pos hk]
      exact hdoc
    · show DocOK used (Prod.snd (if kv.1 = n then (n, doc) else kv))
      rw [if_neg hk]
      exact h _ (List.mem_map_of_mem _ hkv)
  · rw [if_neg hany] at hd
    rw [List.map_append] at hd
    rcases List.mem_append.1 hd with hd | hd
    · exact h d hd
    · have : d = doc := by simpa using hd
      rw [this]; exact hdoc

/-- A loaded design is either empty or one of the stored snapshots. -/
lemma load_mem_or_nil (st : Storage) (n : String) :
    loadFromLocalStorage st n = [] ∨ loadFromLocalStorage st n ∈ st.map Prod.snd := by
  unfold loadFromLocalStorage
  cases hf : List.find? (fun kv => kv.1 = n) st with
  | none => exact Or.inl rfl
  | some kv => exact Or.inr (List.mem_map_of_mem _ (List.mem_of_find?_eq_some hf))

/-- One editor event preserves the session invariant, relative to the ids
it generates, provided those ids were never used before. -/
lemma sessionOK_applyEvent {used : List String} {es : EditorState}
    (e : EditorEvent) (h : SessionOK used es)
    (hfresh : ∀ i ∈ eventAddIds e, i ∉ used) :
    SessionOK (used ++ eventAddIds e) (applyEvent es e) := by
  obtain ⟨happ, hstore⟩ := h
  have hsub : ∀ l2 : List String, ∀ i ∈ used, i ∈ used ++ l2 :=
    fun l2 i hi => List.mem_append_left l2 hi
  cases e with
  | addGen ty now =>
      refine ⟨?_, fun d hd => docOK_mono (hsub _) (hstore d hd)⟩
      exact appOK_pushed _ _ happ (hsub _)
        (docOK_append_fresh happ.1 (generateShape ty now)
          (hfresh _ (by simp [eventAddIds, generateShape])))
  | addInline ty now =>
      refine ⟨?_, fun d hd => docOK_mono (hsub _) (hstore d hd)⟩
      exact appOK_pushed _ _ happ (hsub _)
        (docOK_append_fresh happ.1
          (newShapeInline ty now es.app.present.length)
          (hfresh _ (by simp [eventAddIds, newShapeInline])))
  | updateEvt p =>
      simp only [eventAddIds, List.append_nil]
      exact ⟨appOK_pushed _ _ happ (fun i hi => hi) (docOK_update p happ.1), hstore⟩
  | deleteEvt i =>
      simp only [eventAddIds, List.append_nil]
      exact ⟨appOK_pushed _ _ happ (fun i hi => hi) (docOK_filter _ happ.1), hstore⟩
  | clearEvt =>
      simp only [eventAddIds, List.append_nil]
      exact ⟨appOK_pushed _ _ happ (fun i hi => hi) (docOK_nil used), hstore⟩
  | undoEvt =>
      simp only [eventAddIds, List.append_nil]
      exact ⟨appOK_undo happ, hstore⟩
  | redoEvt =>
      simp only [eventAddIds, List.append_nil]
      exact ⟨appOK_redo happ, hstore⟩
  | selectEvt o =>
      simp only [eventAddIds, List.append_nil]
      exact ⟨⟨happ.1, happ.2.1, happ.2.2⟩, hstore⟩
  | saveEvt n =>
      simp only [eventAddIds, List.append_nil]
      exact ⟨happ, storeOK_save hstore happ.1 n⟩
  | loadEvt n =>
      simp only [eventAddIds, List.append_nil]
      refine ⟨⟨?_, happ.2.1, happ.2.2⟩, hstore⟩
      show DocOK used (loadFromLocalStorage es.store n)
      rcases load_mem_or_nil es.store n with hl | hl
      · rw [hl]; exact docOK_nil used
      · exact hstore _ hl

/-- A whole trace preserves the session invariant when the ids it generates
are pairwise distinct and never used before. -/
lemma sessionOK_runEvents (l : List EditorEvent) :
    ∀ (used : List String) (es : EditorState), SessionOK used es →
      (traceAddIds l).Nodup → (∀ i ∈ traceAddIds l, i ∉ used) →
      SessionOK (used ++ traceAddIds l) (runEvents es l) := by
  induction l with
  | nil =>
      intro used es h _ _
      simpa [runEvents, traceAddIds] using h
  | cons e t ih =>
      intro used es h hnd hfr
      have htrace : traceAddIds (e :: t) = eventAddIds e ++ traceAddIds t := by
        simp [traceAddIds]
      rw [htrace] at hnd hfr
      rw [htrace, ← List.append_assoc]
      obtain ⟨hnd1, hnd2, hdisj⟩ := List.nodup_append.1 hnd
      have h1 := sessionOK_applyEvent e h
        (fun i hi => hfr i (List.mem_append_left _ hi))
      have hrun : runEvents es (e :: t) = runEvents (applyEvent es e) t := rfl
      rw [hrun]
      apply ih (used ++ eventAddIds e) (applyEvent es e) h1 hnd2
      intro i hi hmem
      rcases List.mem_append.1 hmem with hm | hm
      · exact hfr i (List.mem_append_right _ hi) hm
      · exact hdisj hm hi

/-- The startup session satisfies the invariant over no generated ids. -/
lemma sessionOK_initial : SessionOK [] initialEditor := by
  refine ⟨⟨docOK_nil [], ?_, ?_⟩, ?_⟩ <;> intro d hd <;> simp [initialEditor, initialState] at hd

/-- C6 (amended): in every session reachable from startup by the editor's
own dispatches, the present holds no two shapes with the same id, provided
the clock readings taken at the shape creations yield pairwise distinct id
strings (two creations in the same millisecond would share an id). -/
theorem reachable_present_ids_nodup (l : List EditorEvent)
    (h : (traceAddIds l).Nodup) :
    (((runEvents initialEditor l).app.present.map Shape.id)).Nodup := by
  have hses := sessionOK_runEvents l [] initialEditor sessionOK_initial h (by simp)
  exact hses.1.1.1

/-- Witness for C6 (amended): two adds at distinct clock readings. -/
theorem reachable_present_ids_nodup_witness :
    (((runEvents initialEditor
        [EditorEvent.addGen ShapeType.rectangle 1,
         EditorEvent.addInline ShapeType.circle 2]).app.present.map Shape.id)).Nodup :=
  reachable_present_ids_nodup _ (by decide)

/-- Counterexample for C6 as stated: two adds during the same millisecond
(equal Date.now() readings) produce a reachable present whose two shapes
share the id "5". -/
theorem duplicate_timestamp_ids_cex :
    (((runEvents initialEditor
        [EditorEvent.addGen ShapeType.rectangle 5,
         EditorEvent.addGen ShapeType.circle 5]).app.present.map Shape.id)) =
      [Nat.repr 5, Nat.repr 5] ∧
    ¬ (((runEvents initialEditor
        [EditorEvent.addGen ShapeType.rectangle 5,
         EditorEvent.addGen ShapeType.circle 5]).app.present.map Shape.id)).Nodup := by
  constructor
  · rfl
  · decide

end DesignEditor
